import Mathlib

/-!
# Verification of the `files` crate file-identity abstraction

A shallow embedding of `src/file.rs`: the `File` path wrapper with its
existence/type queries, whole-content SHA-256 hashing, two equality
predicates (hash-based shallow match, byte-based deep match) and a
recursive delete operation.

The filesystem is modelled as a finite map from component paths to
entries; an entry is a regular file (with byte content and a readability
flag, so that a read that fails after the file-type check is
representable), a directory, or a special entry (socket, device, ...)
that is neither a regular file nor a directory. A set of locked paths
models targets whose deletion fails with an I/O error.

SHA-256 (the `sha2` crate primitive the code calls) is implemented in
full per FIPS 180-4 over byte lists, with 32-bit words as `Nat` reduced
modulo `2 ^ 32`, so every definition is executable.
-/

/-! ## SHA-256 over byte lists -/

/-- Reduce to a 32-bit word. -/
def w32 (n : Nat) : Nat := n % 4294967296

/-- Right rotation of a 32-bit word by `k` bits. -/
def rotr (k w : Nat) : Nat := w32 ((w <<< (32 - k)) ||| (w >>> k))

/-- The SHA-256 working state: eight 32-bit words. -/
structure Sha256State where
  a : Nat
  b : Nat
  c : Nat
  d : Nat
  e : Nat
  f : Nat
  g : Nat
  h : Nat
deriving DecidableEq

/-- The SHA-256 initial hash value (FIPS 180-4 §5.3.3, written in
decimal). -/
def initState : Sha256State :=
  ⟨1779033703, 3144134277, 1013904242, 2773480762,
   1359893119, 2600822924, 528734635, 1541459225⟩

/-- The 64 SHA-256 round constants (FIPS 180-4 §4.2.2, written in
decimal). -/
def roundK : List Nat :=
  [1116352408, 1899447441, 3049323471, 3921009573,
   961987163, 1508970993, 2453635748, 2870763221,
   3624381080, 310598401, 607225278, 1426881987,
   1925078388, 2162078206, 2614888103, 3248222580,
   3835390401, 4022224774, 264347078, 604807628,
   770255983, 1249150122, 1555081692, 1996064986,
   2554220882, 2821834349, 2952996808, 3210313671,
   3336571891, 3584528711, 113926993, 338241895,
   666307205, 773529912, 1294757372, 1396182291,
   1695183700, 1986661051, 2177026350, 2456956037,
   2730485921, 2820302411, 3259730800, 3345764771,
   3516065817, 3600352804, 4094571909, 275423344,
   430227734, 506948616, 659060556, 883997877,
   958139571, 1322822218, 1537002063, 1747873779,
   1955562222, 2024104815, 2227730452, 2361852424,
   2428436474, 2756734187, 3204031479, 3329325298]

/-- Choice function of the round. -/
def chFn (e f g : Nat) : Nat := (e &&& f) ^^^ ((e ^^^ 4294967295) &&& g)

/-- Majority function of the round. -/
def majFn (x y z : Nat) : Nat := (x &&& y) ^^^ ((x &&& z) ^^^ (y &&& z))

/-- Big sigma 0. -/
def bigSigma0 (x : Nat) : Nat := rotr 2 x ^^^ rotr 13 x ^^^ rotr 22 x

/-- Big sigma 1. -/
def bigSigma1 (x : Nat) : Nat := rotr 6 x ^^^ rotr 11 x ^^^ rotr 25 x

/-- Small sigma 0 of the message schedule. -/
def smallSigma0 (x : Nat) : Nat := rotr 7 x ^^^ rotr 18 x ^^^ (x >>> 3)

/-- Small sigma 1 of the message schedule. -/
def smallSigma1 (x : Nat) : Nat := rotr 17 x ^^^ rotr 19 x ^^^ (x >>> 10)

/-- One compression round; `kw` is the round constant plus schedule word. -/
def sha256Round (st : Sha256State) (kw : Nat) : Sha256State :=
  let t1 := w32 (st.h + bigSigma1 st.e + chFn st.e st.f st.g + kw)
  let t2 := w32 (bigSigma0 st.a + majFn st.a st.b st.c)
  ⟨w32 (t1 + t2), st.a, st.b, st.c, w32 (st.d + t1), st.e, st.f, st.g⟩

/-- Big-endian decoding of 64 block bytes into 16 words. -/
def toWords : List Nat → List Nat
  | b0 :: b1 :: b2 :: b3 :: rest =>
      (b0 * 16777216 + b1 * 65536 + b2 * 256 + b3) :: toWords rest
  | _ => []

/-- One message-schedule extension step: append the next word. -/
def extendStep (ws : List Nat) : List Nat :=
  let i := ws.length
  ws ++ [w32 (ws.getD (i - 16) 0 + smallSigma0 (ws.getD (i - 15) 0) +
              ws.getD (i - 7) 0 + smallSigma1 (ws.getD (i - 2) 0))]

/-- Iterate the message-schedule extension `n` times. -/
def extendSchedule : Nat → List Nat → List Nat
  | 0, ws => ws
  | n + 1, ws => extendSchedule n (extendStep ws)

/-- Compress one 64-byte block into the running state. -/
def compressBlock (st : Sha256State) (block : List Nat) : Sha256State :=
  let ws := extendSchedule 48 (toWords block)
  let kws := List.zipWith (fun k w => k + w) roundK ws
  let r := kws.foldl sha256Round st
  ⟨w32 (st.a + r.a), w32 (st.b + r.b), w32 (st.c + r.c), w32 (st.d + r.d),
   w32 (st.e + r.e), w32 (st.f + r.f), w32 (st.g + r.g), w32 (st.h + r.h)⟩

/-- Big-endian 8-byte encoding of the bit length. -/
def lenBytesBE (n : Nat) : List Nat :=
  [n / 72057594037927936 % 256, n / 281474976710656 % 256,
   n / 1099511627776 % 256, n / 4294967296 % 256,
   n / 16777216 % 256, n / 65536 % 256, n / 256 % 256, n % 256]

/-- SHA-256 padding: append `0x80`, zeros, and the 64-bit message bit length,
reaching a multiple of 64 bytes. -/
def padMessage (msg : List Nat) : List Nat :=
  msg ++ 128 :: List.replicate ((119 - msg.length % 64) % 64) 0
      ++ lenBytesBE (msg.length * 8)

/-- Process `n` 64-byte blocks of `bytes`. -/
def processBlocks : Nat → Sha256State → List Nat → Sha256State
  | 0, st, _ => st
  | n + 1, st, bytes => processBlocks n (compressBlock st (bytes.take 64)) (bytes.drop 64)

/-- Big-endian bytes of one 32-bit word. -/
def wordBytes (w : Nat) : List Nat :=
  [w / 16777216 % 256, w / 65536 % 256, w / 256 % 256, w % 256]

/-- The 32 digest bytes of a final state. -/
def digestBytes (st : Sha256State) : List Nat :=
  wordBytes st.a ++ wordBytes st.b ++ wordBytes st.c ++ wordBytes st.d ++
  wordBytes st.e ++ wordBytes st.f ++ wordBytes st.g ++ wordBytes st.h

/-- SHA-256 of a byte list, as the 32 digest bytes. -/
def sha256 (msg : List Nat) : List Nat :=
  let padded := padMessage msg
  digestBytes (processBlocks (padded.length / 64) initState padded)

/-- Lowercase hexadecimal digit of a value below 16. -/
def hexDigit : Nat → Char
  | 0 => '0'
  | 1 => '1'
  | 2 => '2'
  | 3 => '3'
  | 4 => '4'
  | 5 => '5'
  | 6 => '6'
  | 7 => '7'
  | 8 => '8'
  | 9 => '9'
  | 10 => 'a'
  | 11 => 'b'
  | 12 => 'c'
  | 13 => 'd'
  | 14 => 'e'
  | _ => 'f'

/-- The sixteen lowercase hexadecimal digits. -/
def hexChars : List Char := (List.range 16).map hexDigit

/-- Two lowercase hex characters per byte, no delimiter: the embedding of
the `format!` with the lower-hex specifier over the digest bytes. -/
def hexOfBytes : List Nat → List Char
  | [] => []
  | b :: bs => hexDigit (b / 16) :: hexDigit (b % 16) :: hexOfBytes bs

/-- SHA-256 digest rendered as the 64-character lowercase hex string. -/
def sha256Hex (msg : List Nat) : String := String.mk (hexOfBytes (sha256 msg))

/-! ## Filesystem model

The model of the host filesystem the Rust standard library calls act on.
A path is a list of components. An entry is a regular file (bytes plus a
readability flag: stat can succeed where a whole-content read fails, as
with a mode-000 file), a directory, or a special entry that is neither
(socket, device). `locked` paths are targets whose deletion fails with an
I/O error. -/

/-- A filesystem path, as its list of components. -/
abbrev FsPath := List String

/-- One filesystem entry. -/
inductive Entry where
  | file (content : List Nat) (readable : Bool)
  | dir
  | special
deriving DecidableEq

/-- A filesystem state: a finite map from paths to entries, plus the set
of paths whose deletion fails. -/
structure FS where
  entries : List (FsPath × Entry)
  locked : List FsPath
deriving DecidableEq

/-- First-match lookup in an entry list. -/
def lookupEntries : List (FsPath × Entry) → FsPath → Option Entry
  | [], _ => none
  | e :: rest, p => if e.1 = p then some e.2 else lookupEntries rest p

/-- Look a path up in the filesystem. -/
def FS.lookup (fs : FS) (p : FsPath) : Option Entry := lookupEntries fs.entries p

/-- `pathLe d p` holds when `d` is an initial segment of `p`: the entry at
`p` lies at or below `d`. -/
def pathLe (d p : FsPath) : Bool := decide (p.take d.length = d)

/-- The two error kinds the spec distinguishes for fallible operations. -/
inductive IoError where
  | notFound
  | io
deriving DecidableEq

/-- Model of `std::fs::metadata`: the entry at the path, or `NotFound`. -/
def fsMetadata (fs : FS) (p : FsPath) : Except IoError Entry :=
  match fs.lookup p with
  | some e => Except.ok e
  | none => Except.error IoError.notFound

/-- Byte length reported by metadata: content length for a regular file,
zero for the other entry kinds (the model's stand-in for their
platform-dependent sizes). -/
def Entry.byteLen : Entry → Nat
  | Entry.file c _ => c.length
  | Entry.dir => 0
  | Entry.special => 0

/-- Model of `Path::is_file`: a regular file is at the path; any stat
failure yields `false`. -/
def pathIsFile (fs : FS) (p : FsPath) : Bool :=
  match fs.lookup p with
  | some (Entry.file _ _) => true
  | _ => false

/-- Model of `Path::is_dir`. -/
def pathIsDir (fs : FS) (p : FsPath) : Bool :=
  match fs.lookup p with
  | some Entry.dir => true
  | _ => false

/-- Model of `Path::exists`: the path resolves to some entry. -/
def pathExists (fs : FS) (p : FsPath) : Bool := (fs.lookup p).isSome

/-- Model of `std::fs::read`: the full content of a readable regular
file; `NotFound` for a missing path, a generic I/O error for a directory,
a special entry, or an unreadable file. -/
def fsReadFile (fs : FS) (p : FsPath) : Except IoError (List Nat) :=
  match fs.lookup p with
  | some (Entry.file c true) => Except.ok c
  | some (Entry.file _ false) => Except.error IoError.io
  | some Entry.dir => Except.error IoError.io
  | some Entry.special => Except.error IoError.io
  | none => Except.error IoError.notFound

/-- Model of `std::fs::remove_file`: deletes the single entry at the
path; fails with an I/O error when the target is locked (or a
directory), with `NotFound` when absent. -/
def fsRemoveFile (fs : FS) (p : FsPath) : Except IoError Unit × FS :=
  match fs.lookup p with
  | none => (Except.error IoError.notFound, fs)
  | some Entry.dir => (Except.error IoError.io, fs)
  | some _ =>
      if p ∈ fs.locked then (Except.error IoError.io, fs)
      else (Except.ok (), ⟨fs.entries.filter (fun e => !decide (e.1 = p)), fs.locked⟩)

/-- Model of `std::fs::remove_dir_all`: deletes the directory and every
entry below it; fails with an I/O error when any entry at or below the
path is locked, with `NotFound` when the path is absent. -/
def fsRemoveDirAll (fs : FS) (p : FsPath) : Except IoError Unit × FS :=
  match fs.lookup p with
  | none => (Except.error IoError.notFound, fs)
  | some _ =>
      if fs.locked.any (fun q => pathLe p q) then (Except.error IoError.io, fs)
      else (Except.ok (), ⟨fs.entries.filter (fun e => !pathLe p e.1), fs.locked⟩)

/-! ## The `File` abstraction of `src/file.rs` -/

/-- The `File` struct: a stored path. -/
structure File where
  path : FsPath
deriving DecidableEq

/-- `File::new`: stores the given path verbatim; touches no state. -/
def File.new (p : FsPath) : File := ⟨p⟩

/-- `File::metadata`: metadata of the stored path. -/
def File.metadata (fs : FS) (f : File) : Except IoError Entry :=
  fsMetadata fs f.path

/-- `File::len`: `Ok(self.metadata()?.len())`. -/
def File.len (fs : FS) (f : File) : Except IoError Nat :=
  match File.metadata fs f with
  | Except.ok md => Except.ok md.byteLen
  | Except.error e => Except.error e

/-- `File::is_file`. -/
def File.is_file (fs : FS) (f : File) : Bool := pathIsFile fs f.path

/-- `File::is_directory`. -/
def File.is_directory (fs : FS) (f : File) : Bool := pathIsDir fs f.path

/-- `File::exists`. -/
def File.exists (fs : FS) (f : File) : Bool := pathExists fs f.path

/-- `File::hash`: empty string unless the path is a regular file; then
the SHA-256 of the whole content, or the empty string when the read
fails. -/
def File.hash (fs : FS) (f : File) : String :=
  if !File.is_file fs f then ""
  else
    match fsReadFile fs f.path with
    | Except.ok content => sha256Hex content
    | Except.error _ => ""

/-- `File::is_match`: false unless both paths are regular files; then
hash equality. -/
def File.is_match (fs : FS) (a other : File) : Bool :=
  if !File.is_file fs a || !File.is_file fs other then false
  else File.hash fs a == File.hash fs other

/-- `File::is_deep_match`: false unless both paths are regular files;
then both whole-content reads must succeed and agree byte for byte. -/
def File.is_deep_match (fs : FS) (a other : File) : Bool :=
  if !File.is_file fs a || !File.is_file fs other then false
  else
    match fsReadFile fs a.path, fsReadFile fs other.path with
    | Except.ok x, Except.ok y => x == y
    | _, _ => false

/-- `File::rm`: single-file delete for a regular file, recursive delete
for a directory, no-op success otherwise; the `?` operator propagates a
primitive failure. -/
def File.rm (fs : FS) (f : File) : Except IoError Unit × FS :=
  if File.is_file fs f then
    match fsRemoveFile fs f.path with
    | (Except.ok _, fs1) => (Except.ok (), fs1)
    | (Except.error e, fs1) => (Except.error e, fs1)
  else if File.is_directory fs f then
    match fsRemoveDirAll fs f.path with
    | (Except.ok _, fs1) => (Except.ok (), fs1)
    | (Except.error e, fs1) => (Except.error e, fs1)
  else (Except.ok (), fs)

/-! ## The operation table

Every public operation of the abstraction, as one step function on the
filesystem state. Each query translates the corresponding method body;
the filesystem component of a query's result is unchanged because the
method calls only read-only standard-library primitives (`metadata`,
`read`, `is_file`, `is_dir`, `exists`), while `rm` threads the state of
the delete primitives. -/

/-- One invocation of a public operation of the abstraction. -/
inductive Op where
  | newOp (p : FsPath)
  | metadataOp (f : File)
  | lenOp (f : File)
  | existsOp (f : File)
  | isFileOp (f : File)
  | isDirectoryOp (f : File)
  | hashOp (f : File)
  | isMatchOp (a b : File)
  | isDeepMatchOp (a b : File)
  | rmOp (f : File)
deriving DecidableEq

/-- The result an operation returns to its caller. -/
inductive OpResult where
  | fileVal (f : File)
  | metaVal (r : Except IoError Entry)
  | natVal (r : Except IoError Nat)
  | boolVal (b : Bool)
  | strVal (s : String)
  | unitVal (r : Except IoError Unit)

/-- Run one operation against a filesystem state, returning its result
and the filesystem afterwards. -/
def applyOp (fs : FS) : Op → OpResult × FS
  | Op.newOp p => (OpResult.fileVal (File.new p), fs)
  | Op.metadataOp f => (OpResult.metaVal (File.metadata fs f), fs)
  | Op.lenOp f => (OpResult.natVal (File.len fs f), fs)
  | Op.existsOp f => (OpResult.boolVal (File.exists fs f), fs)
  | Op.isFileOp f => (OpResult.boolVal (File.is_file fs f), fs)
  | Op.isDirectoryOp f => (OpResult.boolVal (File.is_directory fs f), fs)
  | Op.hashOp f => (OpResult.strVal (File.hash fs f), fs)
  | Op.isMatchOp a b => (OpResult.boolVal (File.is_match fs a b), fs)
  | Op.isDeepMatchOp a b => (OpResult.boolVal (File.is_deep_match fs a b), fs)
  | Op.rmOp f => (OpResult.unitVal (File.rm fs f).1, (File.rm fs f).2)

/-! ## Helper lemmas -/

/-- Every hex digit the encoder emits is one of the sixteen lowercase
hexadecimal characters. -/
theorem hexDigit_mem (n : Nat) : hexDigit n ∈ hexChars := by
  rcases Nat.lt_or_ge n 15 with h | h
  · exact List.mem_map.mpr ⟨n, List.mem_range.mpr (Nat.lt_of_lt_of_le h (by omega)), rfl⟩
  · obtain ⟨k, rfl⟩ := Nat.exists_eq_add_of_le h
    rw [Nat.add_comm]
    show 'f' ∈ hexChars
    exact List.mem_map.mpr ⟨15, List.mem_range.mpr (by omega), rfl⟩

/-- Every character of a hex-encoded byte list is a lowercase hex digit. -/
theorem hexOfBytes_mem (l : List Nat) (c : Char) (hc : c ∈ hexOfBytes l) :
    c ∈ hexChars := by
  induction l with
  | nil => simp [hexOfBytes] at hc
  | cons b bs ih =>
      simp only [hexOfBytes, List.mem_cons] at hc
      rcases hc with rfl | rfl | hc
      · exact hexDigit_mem _
      · exact hexDigit_mem _
      · exact ih hc

/-- Hex encoding yields two characters per byte. -/
theorem hexOfBytes_length (l : List Nat) : (hexOfBytes l).length = 2 * l.length := by
  induction l with
  | nil => rfl
  | cons b bs ih => simp [hexOfBytes, ih]; omega

/-- The digest always consists of 32 bytes. -/
theorem sha256_length (msg : List Nat) : (sha256 msg).length = 32 := by
  unfold sha256
  rfl

/-- The rendered digest is always 64 characters long. -/
theorem sha256Hex_length (msg : List Nat) : (sha256Hex msg).length = 64 := by
  show (hexOfBytes (sha256 msg)).length = 64
  rw [hexOfBytes_length, sha256_length]

/-- Every character of the rendered digest is a lowercase hex digit. -/
theorem sha256Hex_chars (msg : List Nat) (c : Char) (hc : c ∈ (sha256Hex msg).data) :
    c ∈ hexChars := hexOfBytes_mem _ _ hc

/-- Lookup after filtering the entry list by a predicate on paths: the
entry survives exactly when its path is kept. -/
theorem lookupEntries_filter (entries : List (FsPath × Entry)) (keep : FsPath → Bool)
    (q : FsPath) :
    lookupEntries (entries.filter (fun e => keep e.1)) q =
      if keep q then lookupEntries entries q else none := by
  induction entries with
  | nil => simp [lookupEntries]
  | cons a t ih =>
      by_cases haq : a.1 = q
      · subst haq
        cases hk : keep a.1 with
        | true => simp [List.filter_cons, hk, lookupEntries, ih]
        | false => simp [List.filter_cons, hk, lookupEntries, ih]
      · cases hk : keep a.1 with
        | true => simp [List.filter_cons, hk, lookupEntries, haq, ih]
        | false => simp [List.filter_cons, hk, lookupEntries, haq, ih]

/-- A path is always an initial segment of itself. -/
theorem pathLe_refl (p : FsPath) : pathLe p p = true := by
  simp [pathLe]

/-- A successful whole-content read means the path holds a readable
regular file with exactly that content. -/
theorem fsReadFile_ok (fs : FS) (p : FsPath) (c : List Nat)
    (h : fsReadFile fs p = Except.ok c) : fs.lookup p = some (Entry.file c true) := by
  unfold fsReadFile at h
  rcases hl : fs.lookup p with _ | e
  · rw [hl] at h; exact absurd h (by simp)
  · rcases e with ⟨c0, r⟩ | _ | _ <;> rw [hl] at h
    · cases r with
      | true => simp at h; simp [h]
      | false => exact absurd h (by simp)
    · exact absurd h (by simp)
    · exact absurd h (by simp)

/-- A successful read implies the file-type check passes. -/
theorem is_file_of_read_ok (fs : FS) (f : File) (c : List Nat)
    (h : fsReadFile fs f.path = Except.ok c) : File.is_file fs f = true := by
  have hl := fsReadFile_ok fs f.path c h
  simp [File.is_file, pathIsFile, hl]

/-- When the whole-content read succeeds, the hash is the rendered
SHA-256 digest of the content. -/
theorem hash_of_read_ok (fs : FS) (f : File) (c : List Nat)
    (h : fsReadFile fs f.path = Except.ok c) : File.hash fs f = sha256Hex c := by
  rw [File.hash, is_file_of_read_ok fs f c h]
  simp [h]


/-! ## Claim C1: shallow match characterization -/

/-- C1, as stated, is refuted: two regular files whose reads fail (the
readable flag is off) both hash to the empty string, and `is_match`
returns `true` on them — so `is_match a b = true` does not imply the two
hash values are non-empty. -/
theorem c1_counterexample :
    File.is_match ⟨[(["a"], Entry.file [0] false), (["b"], Entry.file [1] false)], []⟩
        ⟨["a"]⟩ ⟨["b"]⟩ = true ∧
    File.hash ⟨[(["a"], Entry.file [0] false), (["b"], Entry.file [1] false)], []⟩ ⟨["a"]⟩ = "" ∧
    File.hash ⟨[(["a"], Entry.file [0] false), (["b"], Entry.file [1] false)], []⟩ ⟨["b"]⟩ = "" := by
  refine ⟨rfl, rfl, rfl⟩

/-- C1 (amended): `is_match a b` is `true` exactly when both paths are
regular files and their `hash()` values are identical; in particular, when
either path is non-existent, a directory, or otherwise not a regular
file, `is_match` returns `false`, so two non-file paths never compare
equal through coinciding empty-string hashes. (The hashes are moreover
non-empty whenever both reads succeed, but not when both reads fail.) -/
theorem c1_is_match_characterization (fs : FS) (a b : File) :
    File.is_match fs a b =
      (File.is_file fs a && File.is_file fs b && (File.hash fs a == File.hash fs b)) ∧
    (File.is_file fs a = false → File.is_match fs a b = false) ∧
    (File.is_file fs b = false → File.is_match fs a b = false) := by
  refine ⟨?_, ?_, ?_⟩ <;>
    cases hfa : File.is_file fs a <;> cases hfb : File.is_file fs b <;>
      simp [File.is_match, hfa, hfb]

/-- C1 witness: on an empty filesystem both paths fail the file check and
`is_match` is `false`. -/
theorem c1_witness :
    File.is_file ⟨[], []⟩ ⟨["x"]⟩ = false ∧
    File.is_match (⟨[], []⟩ : FS) ⟨["x"]⟩ ⟨["y"]⟩ = false :=
  ⟨rfl, (c1_is_match_characterization ⟨[], []⟩ ⟨["x"]⟩ ⟨["y"]⟩).2.1 rfl⟩

/-! ## Claim C2: deep match characterization -/

/-- C2: `is_deep_match a b` is `true` exactly when both paths are regular
files, both whole-content reads succeed, and the contents are
byte-for-byte identical; it is `false` whenever either path is not a
regular file (missing or a directory) or either content read fails. -/
theorem c2_is_deep_match_characterization (fs : FS) (a b : File) :
    (File.is_deep_match fs a b = true ↔
      File.is_file fs a = true ∧ File.is_file fs b = true ∧
      ∃ c, fsReadFile fs a.path = Except.ok c ∧ fsReadFile fs b.path = Except.ok c) ∧
    (File.is_file fs a = false → File.is_deep_match fs a b = false) ∧
    (File.is_file fs b = false → File.is_deep_match fs a b = false) ∧
    (∀ e, fsReadFile fs a.path = Except.error e → File.is_deep_match fs a b = false) ∧
    (∀ e, fsReadFile fs b.path = Except.error e → File.is_deep_match fs a b = false) := by
  refine ⟨?_, ?_, ?_, ?_, ?_⟩
  · cases hfa : File.is_file fs a <;> cases hfb : File.is_file fs b <;>
      simp [File.is_deep_match, hfa, hfb]
    cases hra : fsReadFile fs a.path with
    | error e => simp [hra]
    | ok x =>
        cases hrb : fsReadFile fs b.path with
        | error e => simp
        | ok y =>
            simp only [beq_iff_eq]
            constructor
            · intro h; exact ⟨x, rfl, by rw [h]⟩
            · rintro ⟨c, hc1, hc2⟩
              cases hc1
              cases hc2
              rfl
  · intro h; simp [File.is_deep_match, h]
  · intro h; simp [File.is_deep_match, h]
  · intro e he
    cases hfa : File.is_file fs a <;> cases hfb : File.is_file fs b <;>
      simp [File.is_deep_match, hfa, hfb, he]
  · intro e he
    cases hfa : File.is_file fs a <;> cases hfb : File.is_file fs b <;>
      simp [File.is_deep_match, hfa, hfb, he]

/-- C2 witness: two readable files with identical one-byte content deep
match, and the characterization applies to them. -/
theorem c2_witness :
    File.is_deep_match ⟨[(["a"], Entry.file [7] true), (["b"], Entry.file [7] true)], []⟩
      ⟨["a"]⟩ ⟨["b"]⟩ = true :=
  (c2_is_deep_match_characterization
      ⟨[(["a"], Entry.file [7] true), (["b"], Entry.file [7] true)], []⟩
      ⟨["a"]⟩ ⟨["b"]⟩).1.mpr ⟨rfl, rfl, [7], rfl, rfl⟩

/-! ## Claim C3: the two equality notions agree on readable regular files -/

/-- C3: on inputs where both paths are regular files whose contents read
successfully, `is_match` and `is_deep_match` return the same boolean,
assuming SHA-256 does not collide on the two contents. -/
theorem c3_match_agrees_deep_match (fs : FS) (a b : File) (ca cb : List Nat)
    (hra : fsReadFile fs a.path = Except.ok ca)
    (hrb : fsReadFile fs b.path = Except.ok cb)
    (hcoll : sha256Hex ca = sha256Hex cb → ca = cb) :
    File.is_match fs a b = File.is_deep_match fs a b := by
  have hfa := is_file_of_read_ok fs a ca hra
  have hfb := is_file_of_read_ok fs b cb hrb
  have hha := hash_of_read_ok fs a ca hra
  have hhb := hash_of_read_ok fs b cb hrb
  rw [File.is_match, File.is_deep_match, hfa, hfb, hha, hhb, hra, hrb]
  by_cases h : ca = cb
  · simp [h]
  · have hne : sha256Hex ca ≠ sha256Hex cb := fun he => h (hcoll he)
    simp [h, hne]

/-- C3 witness: two files both containing the bytes of a "Hello, World!"
line; the collision hypothesis is trivially discharged because the two
contents coincide. -/
theorem c3_witness :
    fsReadFile ⟨[(["file1.txt"], Entry.file [72, 105] true), (["file2.txt"], Entry.file [72, 105] true)], []⟩
      ["file1.txt"] = Except.ok [72, 105] ∧
    File.is_match ⟨[(["file1.txt"], Entry.file [72, 105] true), (["file2.txt"], Entry.file [72, 105] true)], []⟩
        ⟨["file1.txt"]⟩ ⟨["file2.txt"]⟩ =
      File.is_deep_match ⟨[(["file1.txt"], Entry.file [72, 105] true), (["file2.txt"], Entry.file [72, 105] true)], []⟩
        ⟨["file1.txt"]⟩ ⟨["file2.txt"]⟩ :=
  ⟨rfl,
   c3_match_agrees_deep_match _ ⟨["file1.txt"]⟩ ⟨["file2.txt"]⟩ [72, 105] [72, 105]
     rfl rfl (fun _ => rfl)⟩

/-! ## Claim C4: hash contract -/

/-- A passing file-type check means a regular file entry is at the path. -/
theorem is_file_lookup (fs : FS) (f : File) (h : File.is_file fs f = true) :
    ∃ c r, fs.lookup f.path = some (Entry.file c r) := by
  unfold File.is_file pathIsFile at h
  rcases hl : fs.lookup f.path with _ | e
  · rw [hl] at h; cases h
  · rcases e with ⟨c, r⟩ | _ | _ <;> rw [hl] at h
    · exact ⟨c, r, rfl⟩
    · cases h
    · cases h

/-- A passing directory check means a directory entry is at the path. -/
theorem is_directory_lookup (fs : FS) (f : File) (h : File.is_directory fs f = true) :
    fs.lookup f.path = some Entry.dir := by
  unfold File.is_directory pathIsDir at h
  cases hop : fs.lookup f.path with
  | none => rw [hop] at h; cases h
  | some e =>
      cases e with
      | file c r => rw [hop] at h; cases h
      | dir => rfl
      | special => rw [hop] at h; cases h

/-- C4: `hash` returns the empty string when the file-type check fails,
and the empty string when the whole-content read fails after the check
passed; when the read succeeds it returns the SHA-256 digest of the
entire content as a 64-character string of lowercase hexadecimal digits
(no prefix, no suffix, no delimiter — the string is exactly the 64
digits). The function is total: it never fails with an error. -/
theorem c4_hash_spec (fs : FS) (f : File) :
    (File.is_file fs f = false → File.hash fs f = "") ∧
    (∀ e, fsReadFile fs f.path = Except.error e → File.hash fs f = "") ∧
    (∀ c, fsReadFile fs f.path = Except.ok c →
      File.hash fs f = sha256Hex c ∧ (File.hash fs f).length = 64 ∧
      ∀ ch ∈ (File.hash fs f).data, ch ∈ hexChars) := by
  refine ⟨?_, ?_, ?_⟩
  · intro h; simp [File.hash, h]
  · intro e he
    cases hf : File.is_file fs f <;> simp [File.hash, hf, he]
  · intro c hc
    have hh := hash_of_read_ok fs f c hc
    refine ⟨hh, ?_, ?_⟩
    · rw [hh]; exact sha256Hex_length c
    · rw [hh]; intro ch hch; exact sha256Hex_chars c ch hch

/-- C4 witness: a readable one-byte file; the read succeeds and the
digest contract applies to its content. -/
theorem c4_witness :
    fsReadFile ⟨[(["a"], Entry.file [97] true)], []⟩ ["a"] = Except.ok [97] ∧
    (File.hash ⟨[(["a"], Entry.file [97] true)], []⟩ ⟨["a"]⟩ = sha256Hex [97] ∧
     (File.hash ⟨[(["a"], Entry.file [97] true)], []⟩ ⟨["a"]⟩).length = 64 ∧
     ∀ ch ∈ (File.hash ⟨[(["a"], Entry.file [97] true)], []⟩ ⟨["a"]⟩).data, ch ∈ hexChars) :=
  ⟨rfl, (c4_hash_spec ⟨[(["a"], Entry.file [97] true)], []⟩ ⟨["a"]⟩).2.2 [97] rfl⟩

/-! ## Claim C5: sentinel values for a non-existent path -/

/-- C5: when a path resolves to no filesystem entry, `exists`, `is_file`
and `is_directory` all return `false` and `hash` returns the empty
string; all four queries are total functions (failures are collapsed
into these sentinels, never surfaced as errors). -/
theorem c5_nonexistent_sentinels (fs : FS) (f : File)
    (h : fs.lookup f.path = none) :
    File.exists fs f = false ∧ File.is_file fs f = false ∧
    File.is_directory fs f = false ∧ File.hash fs f = "" := by
  refine ⟨?_, ?_, ?_, ?_⟩
  · simp [File.exists, pathExists, h]
  · simp [File.is_file, pathIsFile, h]
  · simp [File.is_directory, pathIsDir, h]
  · simp [File.hash, File.is_file, pathIsFile, h]

/-- C5 witness: a path absent from a one-entry filesystem. -/
theorem c5_witness :
    FS.lookup ⟨[(["a"], Entry.dir)], []⟩ ["missing"] = none ∧
    (File.exists ⟨[(["a"], Entry.dir)], []⟩ ⟨["missing"]⟩ = false ∧
     File.is_file ⟨[(["a"], Entry.dir)], []⟩ ⟨["missing"]⟩ = false ∧
     File.is_directory ⟨[(["a"], Entry.dir)], []⟩ ⟨["missing"]⟩ = false ∧
     File.hash ⟨[(["a"], Entry.dir)], []⟩ ⟨["missing"]⟩ = "") :=
  ⟨rfl, c5_nonexistent_sentinels ⟨[(["a"], Entry.dir)], []⟩ ⟨["missing"]⟩ rfl⟩

/-! ## Claim C6: remove semantics -/

/-- C6, as stated, is refuted: for a special entry (matched by neither
the file check nor the directory check) `rm` is a successful no-op, yet
the entry still exists afterwards — so a successful `rm` does not always
leave `exists` false. -/
theorem c6_counterexample :
    (File.rm ⟨[(["s"], Entry.special)], []⟩ ⟨["s"]⟩).1 = Except.ok () ∧
    (File.rm ⟨[(["s"], Entry.special)], []⟩ ⟨["s"]⟩).2 = ⟨[(["s"], Entry.special)], []⟩ ∧
    File.exists (File.rm ⟨[(["s"], Entry.special)], []⟩ ⟨["s"]⟩).2 ⟨["s"]⟩ = true := by
  refine ⟨rfl, rfl, rfl⟩

/-- C6 (amended): `rm` performs a single-file delete when the path is a
regular file, a recursive delete when it is a directory, and is a
successful no-op (leaving the filesystem unchanged) when it is neither;
after a successful remove of a path that was a regular file or a
directory, `exists` is false and no other entry is disturbed (for a
directory, every entry at or below it is gone); a delete failure on an
existing file or directory surfaces as an `Io` error. -/
theorem c6_rm_spec (fs : FS) (f : File) :
    (File.is_file fs f = false → File.is_directory fs f = false →
      File.rm fs f = (Except.ok (), fs)) ∧
    (File.is_file fs f = true → f.path ∉ fs.locked →
      (File.rm fs f).1 = Except.ok () ∧
      File.exists (File.rm fs f).2 f = false ∧
      ∀ q, q ≠ f.path → ((File.rm fs f).2).lookup q = fs.lookup q) ∧
    (File.is_directory fs f = true → (∀ q ∈ fs.locked, pathLe f.path q = false) →
      (File.rm fs f).1 = Except.ok () ∧
      File.exists (File.rm fs f).2 f = false ∧
      (∀ q, pathLe f.path q = true → ((File.rm fs f).2).lookup q = none) ∧
      (∀ q, pathLe f.path q = false → ((File.rm fs f).2).lookup q = fs.lookup q)) ∧
    (File.is_file fs f = true → f.path ∈ fs.locked →
      (File.rm fs f).1 = Except.error IoError.io) ∧
    (File.is_directory fs f = true → (∃ q ∈ fs.locked, pathLe f.path q = true) →
      (File.rm fs f).1 = Except.error IoError.io) := by
  refine ⟨?_, ?_, ?_, ?_, ?_⟩
  · intro hf hd
    simp [File.rm, hf, hd]
  · intro hf hnl
    obtain ⟨c, r, hl⟩ := is_file_lookup fs f hf
    have hrm : File.rm fs f =
        (Except.ok (), ⟨fs.entries.filter (fun e => !decide (e.1 = f.path)), fs.locked⟩) := by
      simp [File.rm, hf, fsRemoveFile, hl, hnl]
    refine ⟨by rw [hrm], ?_, ?_⟩
    · rw [hrm]
      have h2 := lookupEntries_filter fs.entries (fun x => !decide (x = f.path)) f.path
      simp only [decide_eq_true_eq] at h2 ⊢
      simp [File.exists, pathExists, FS.lookup, h2]
    · intro q hq
      rw [hrm]
      have h2 := lookupEntries_filter fs.entries (fun x => !decide (x = f.path)) q
      simp [FS.lookup, h2, hq]
  · intro hd hnl
    have hl := is_directory_lookup fs f hd
    have hf : File.is_file fs f = false := by simp [File.is_file, pathIsFile, hl]
    have hany : fs.locked.any (fun q => pathLe f.path q) = false := by
      rw [List.any_eq_false]
      intro q hq
      simp [hnl q hq]
    have hrm : File.rm fs f =
        (Except.ok (), ⟨fs.entries.filter (fun e => !pathLe f.path e.1), fs.locked⟩) := by
      simp [File.rm, hf, hd, fsRemoveDirAll, hl, hany]
    refine ⟨by rw [hrm], ?_, ?_, ?_⟩
    · rw [hrm]
      have h2 := lookupEntries_filter fs.entries (fun x => !pathLe f.path x) f.path
      simp [File.exists, pathExists, FS.lookup, h2, pathLe_refl]
    · intro q hq
      rw [hrm]
      have h2 := lookupEntries_filter fs.entries (fun x => !pathLe f.path x) q
      simp [FS.lookup, h2, hq]
    · intro q hq
      rw [hrm]
      have h2 := lookupEntries_filter fs.entries (fun x => !pathLe f.path x) q
      simp [FS.lookup, h2, hq]
  · intro hf hin
    obtain ⟨c, r, hl⟩ := is_file_lookup fs f hf
    simp [File.rm, hf, fsRemoveFile, hl, hin]
  · intro hd hex
    have hl := is_directory_lookup fs f hd
    have hf : File.is_file fs f = false := by simp [File.is_file, pathIsFile, hl]
    have hany : fs.locked.any (fun q => pathLe f.path q) = true := by
      rcases hex with ⟨q, hq, hpq⟩
      exact List.any_eq_true.mpr ⟨q, hq, hpq⟩
    simp [File.rm, hf, hd, fsRemoveDirAll, hl, hany]

/-- C6 witness: recursively removing a directory with one entry below it
succeeds and the directory no longer exists. -/
theorem c6_witness :
    (File.rm ⟨[(["d"], Entry.dir), (["d", "x"], Entry.file [1] true)], []⟩ ⟨["d"]⟩).1 =
      Except.ok () ∧
    File.exists
      (File.rm ⟨[(["d"], Entry.dir), (["d", "x"], Entry.file [1] true)], []⟩ ⟨["d"]⟩).2
      ⟨["d"]⟩ = false :=
  ⟨(((c6_rm_spec ⟨[(["d"], Entry.dir), (["d", "x"], Entry.file [1] true)], []⟩
      ⟨["d"]⟩).2.2.1) (by decide) (by simp)).1,
   (((c6_rm_spec ⟨[(["d"], Entry.dir), (["d", "x"], Entry.file [1] true)], []⟩
      ⟨["d"]⟩).2.2.1) (by decide) (by simp)).2.1⟩

/-! ## Claim C7: size propagates errors -/

/-- C7: `len` returns the byte length reported by metadata whenever
metadata retrieval succeeds, and propagates the metadata error (in
particular `NotFound` for a missing path) unchanged; its return type
carries no numeric sentinel such as -1 — failure is always an explicit
error value. -/
theorem c7_len_propagates (fs : FS) (f : File) :
    File.len fs f = Except.map Entry.byteLen (File.metadata fs f) ∧
    (fs.lookup f.path = none → File.len fs f = Except.error IoError.notFound) ∧
    (∀ md, File.metadata fs f = Except.ok md → File.len fs f = Except.ok md.byteLen) ∧
    (∀ e, File.metadata fs f = Except.error e → File.len fs f = Except.error e) := by
  refine ⟨?_, ?_, ?_, ?_⟩
  · cases h : File.metadata fs f <;> simp [File.len, h, Except.map]
  · intro h
    simp [File.len, File.metadata, fsMetadata, h]
  · intro md h
    simp [File.len, h]
  · intro e h
    simp [File.len, h]

/-- C7 witness: a missing path makes `len` fail with `NotFound`. -/
theorem c7_witness :
    FS.lookup ⟨[], []⟩ ["gone"] = none ∧
    File.len (⟨[], []⟩ : FS) ⟨["gone"]⟩ = Except.error IoError.notFound :=
  ⟨rfl, (c7_len_propagates ⟨[], []⟩ ⟨["gone"]⟩).2.1 rfl⟩

/-! ## Claim C8: hashing is deterministic and content-addressed -/

/-- C8: for regular files whose reads succeed, the hash is a function of
the content alone — files with identical content hash identically, even
at different paths or in different filesystem states, and (assuming
SHA-256 does not collide on the two contents) files with differing
content hash differently. -/
theorem c8_hash_content_addressed (fs1 fs2 : FS) (a b : File) (ca cb : List Nat)
    (hra : fsReadFile fs1 a.path = Except.ok ca)
    (hrb : fsReadFile fs2 b.path = Except.ok cb)
    (hcoll : sha256Hex ca = sha256Hex cb → ca = cb) :
    (File.hash fs1 a = File.hash fs2 b ↔ ca = cb) := by
  rw [hash_of_read_ok fs1 a ca hra, hash_of_read_ok fs2 b cb hrb]
  constructor
  · exact hcoll
  · intro h
    rw [h]

/-- C8 witness: the same two-byte content at two different paths in two
different filesystem states hashes identically. -/
theorem c8_witness :
    File.hash ⟨[(["p"], Entry.file [1, 2] true)], []⟩ ⟨["p"]⟩ =
      File.hash ⟨[(["q"], Entry.file [1, 2] true), (["r"], Entry.dir)], []⟩ ⟨["q"]⟩ :=
  (c8_hash_content_addressed
    ⟨[(["p"], Entry.file [1, 2] true)], []⟩
    ⟨[(["q"], Entry.file [1, 2] true), (["r"], Entry.dir)], []⟩
    ⟨["p"]⟩ ⟨["q"]⟩ [1, 2] [1, 2] rfl rfl (fun _ => rfl)).mpr rfl

/-! ## Claim C9: only remove touches the filesystem -/

/-- C9: construction and every query — `metadata`, `len`, `exists`,
`is_file`, `is_directory`, `hash`, `is_match`, `is_deep_match` — leave
the filesystem state unchanged; only `rm` is excepted. Construction
stores the given path verbatim (and the model has no operation that
mutates a stored path afterwards). -/
theorem c9_queries_pure (fs : FS) (p : FsPath) (f a b : File) :
    (applyOp fs (Op.newOp p)).2 = fs ∧
    (applyOp fs (Op.metadataOp f)).2 = fs ∧
    (applyOp fs (Op.lenOp f)).2 = fs ∧
    (applyOp fs (Op.existsOp f)).2 = fs ∧
    (applyOp fs (Op.isFileOp f)).2 = fs ∧
    (applyOp fs (Op.isDirectoryOp f)).2 = fs ∧
    (applyOp fs (Op.hashOp f)).2 = fs ∧
    (applyOp fs (Op.isMatchOp a b)).2 = fs ∧
    (applyOp fs (Op.isDeepMatchOp a b)).2 = fs ∧
    (File.new p).path = p :=
  ⟨rfl, rfl, rfl, rfl, rfl, rfl, rfl, rfl, rfl, rfl⟩

/-! ## Claim C10: both match predicates are symmetric -/

/-- C10: against one filesystem state, `is_match` and `is_deep_match`
give the same answer with their arguments swapped. -/
theorem c10_match_symmetric (fs : FS) (a b : File) :
    File.is_match fs a b = File.is_match fs b a ∧
    File.is_deep_match fs a b = File.is_deep_match fs b a := by
  constructor
  · cases hfa : File.is_file fs a <;> cases hfb : File.is_file fs b <;>
      simp [File.is_match, hfa, hfb]
    exact eq_comm
  · cases hfa : File.is_file fs a <;> cases hfb : File.is_file fs b <;>
      simp [File.is_deep_match, hfa, hfb]
    cases hra : fsReadFile fs a.path with
    | error e => cases hrb : fsReadFile fs b.path <;> simp
    | ok x =>
        cases hrb : fsReadFile fs b.path with
        | error e => simp
        | ok y =>
            rw [Bool.eq_iff_iff]
            simp only [beq_iff_eq]
            exact eq_comm
